import Mathlib

/-!
Shallow embedding of `generate_ics.py` (St Mewan Parish Council calendar
scraper): date/time parsing, per-fragment event extraction, calendar
serialization and the run's exit behaviour, together with theorems about
the claims of the specification.
-/

namespace StMewan

/-! ### Configuration constants (from the source header) -/

def BASE_URL : String := "https://www.stmewanparishcouncil.gov.uk"

def TIMEZONE : String := "Europe/London"

def DEFAULT_MEETING_DURATION_HOURS : Nat := 1

def YEAR_THRESHOLD : Int := 50

/-! ### Calendar dates (model of Python `datetime.date`) -/

structure Date where
  year : Nat
  month : Nat
  day : Nat
deriving DecidableEq

def isLeapYear (y : Nat) : Bool :=
  y % 4 == 0 && (y % 100 != 0 || y % 400 == 0)

def daysInMonth (y m : Nat) : Nat :=
  if m = 2 then (if isLeapYear y then 29 else 28)
  else if m = 4 ∨ m = 6 ∨ m = 9 ∨ m = 11 then 30
  else 31

/-- The triples accepted by the `datetime.date` constructor
(`MINYEAR = 1`, `MAXYEAR = 9999`). -/
def validDate (y m d : Nat) : Prop :=
  1 ≤ y ∧ y ≤ 9999 ∧ 1 ≤ m ∧ m ≤ 12 ∧ 1 ≤ d ∧ d ≤ daysInMonth y m

instance (y m d : Nat) : Decidable (validDate y m d) := by
  unfold validDate; infer_instance

/-- Model of `date(y, m, d)`, returning `none` where Python raises `ValueError`. -/
def mkDate (y m d : Nat) : Option Date :=
  if validDate y m d then some ⟨y, m, d⟩ else none

/-- Python `date` comparison: lexicographic on (year, month, day). -/
def dateLt (a b : Date) : Prop :=
  a.year < b.year ∨
    (a.year = b.year ∧ (a.month < b.month ∨ (a.month = b.month ∧ a.day < b.day)))

instance (a b : Date) : Decidable (dateLt a b) := by
  unfold dateLt; infer_instance

def nextDate (d : Date) : Date :=
  if d.day < daysInMonth d.year d.month then ⟨d.year, d.month, d.day + 1⟩
  else if d.month < 12 then ⟨d.year, d.month + 1, 1⟩
  else ⟨d.year + 1, 1, 1⟩

/-- Model of Python `datetime`: a calendar date plus a minute-of-day. -/
structure DateTime where
  date : Date
  mins : Nat
deriving DecidableEq

/-- Model of `dt + timedelta(hours=1)`, normalizing across midnight. -/
def DateTime.addHour (t : DateTime) : DateTime :=
  if t.mins + 60 < 1440 then ⟨t.date, t.mins + 60⟩
  else ⟨nextDate t.date, t.mins + 60 - 1440⟩

/-- Python `datetime` comparison: lexicographic on (date, time-of-day). -/
def DateTime.lt (a b : DateTime) : Prop :=
  dateLt a.date b.date ∨ (a.date = b.date ∧ a.mins < b.mins)

instance (a b : DateTime) : Decidable (DateTime.lt a b) := by
  unfold DateTime.lt; infer_instance

/-! ### The date regex `(\d{1,2}) (\w{3}) (\d{2})` under `re.match` -/

/-- Word character `\w`; ASCII reading, which is what the month
abbreviations and digits exercised by the lookup use. -/
def isWordChar (c : Char) : Bool :=
  c.isAlpha || c.isDigit || c = '_'

/-- The fixed part after the day group: a space, exactly three word
characters, a space, exactly two digits; trailing text is allowed
(the pattern is unanchored at the right). -/
def dateTailMatch (dayS : String) : List Char → Option (String × String × String)
  | ' ' :: a :: b :: c :: ' ' :: y1 :: y2 :: _ =>
    if isWordChar a && isWordChar b && isWordChar c && y1.isDigit && y2.isDigit then
      some (dayS, String.mk [a, b, c], String.mk [y1, y2])
    else none
  | _ => none

/-- Model of `re.match(r'(\d{1,2}) (\w{3}) (\d{2})', s)`: the day group is greedy,
but after it a literal space is required, so at most one of the one-digit
and two-digit alternatives can proceed (the rejected alternative would put
a digit where the space must be). -/
def matchDate : List Char → Option (String × String × String)
  | c1 :: c2 :: rest =>
    if c1.isDigit && c2.isDigit then dateTailMatch (String.mk [c1, c2]) rest
    else if c1.isDigit then dateTailMatch (String.mk [c1]) (c2 :: rest)
    else none
  | _ => none

/-- The fixed 12-entry month lookup used by `strptime`'s `%b` directive
(C locale), stored lowercased as in `_strptime.LocaleTime`. -/
def monthAbbrs : List String :=
  ["jan", "feb", "mar", "apr", "may", "jun",
   "jul", "aug", "sep", "oct", "nov", "dec"]

/-- ASCII lower-casing of one character (`str.lower` on the inputs the
month lookup can see). -/
def lowerChar (c : Char) : Char :=
  if 'A' ≤ c ∧ c ≤ 'Z' then Char.ofNat (c.toNat + 32) else c

/-- Python `str.lower`. -/
def lowerStr (s : String) : String := String.mk (s.data.map lowerChar)

/-- Model of `datetime.strptime(month, "%b").month`: `_strptime` compiles its regex
with `re.IGNORECASE` and looks the group up lowercased, so the match is
case-insensitive. -/
def monthNumber (m : String) : Option Nat :=
  (monthAbbrs.findIdx? (fun a => a == lowerStr m)).map (· + 1)

/-- Python `int(...)` on a string of decimal digits. -/
def strToNat (s : String) : Nat :=
  s.data.foldl (fun n c => n * 10 + (c.toNat - '0'.toNat)) 0

/-- The century-rollover resolution of `parse_event_date`. -/
def resolveYear (currentYear y2 : Nat) : Nat :=
  let currentCentury := (currentYear / 100) * 100
  let current2 := currentYear % 100
  if (y2 : Int) < (current2 : Int) - YEAR_THRESHOLD then
    currentCentury + 100 + y2
  else
    currentCentury + y2

/-- The century formula exactly as §4.1 states it: `current_2digit` is
the current year mod 100, `current_century` is the current year minus
`current_2digit`, and a parsed 2-digit year below `current_2digit − 50`
lands in `current_century + 100`. -/
def specResolvedYear (currentYear y2 : Nat) : Nat :=
  let current2 := currentYear % 100
  let currentCentury := currentYear - current2
  if (y2 : Int) < (current2 : Int) - 50 then currentCentury + 100 + y2
  else currentCentury + y2

/-- Model of `parse_event_date(date_str)`, with the current year (read from
`date.today()` in the source) passed explicitly. -/
def parse_event_date (currentYear : Nat) (s : String) : Option Date :=
  match matchDate s.data with
  | none => none
  | some (dayS, monS, yearS) =>
    match monthNumber monS with
    | none => none
    | some m => mkDate (resolveYear currentYear (strToNat yearS)) m (strToNat dayS)

/-! ### The time regexes of `parse_time_range` under `re.match` -/

/-- Pattern `(\d{1,2}:\d{2})` at the head of the character list, returning the
matched token and the remaining characters.  The hour group is greedy,
but after it a literal `:` is required, so backtracking can never rescue
a failed alternative (the rejected branch would put a digit where the
colon must be). -/
def matchTimeTok : List Char → Option (String × List Char)
  | c1 :: c2 :: rest =>
    if c1.isDigit then
      if c2.isDigit then
        match rest with
        | ':' :: m1 :: m2 :: rest2 =>
          if m1.isDigit && m2.isDigit then
            some (String.mk [c1, c2, ':', m1, m2], rest2)
          else none
        | _ => none
      else if c2 = ':' then
        match rest with
        | m1 :: m2 :: rest2 =>
          if m1.isDigit && m2.isDigit then
            some (String.mk [c1, ':', m1, m2], rest2)
          else none
        | _ => none
      else none
    else none
  | _ => none

/-- Model of `re.match(r'(\d{1,2}:\d{2}) to (\d{1,2}:\d{2})', s)`: first time
token, the literal `" to "`, second time token; trailing text allowed. -/
def matchRangeTok (s : List Char) : Option (String × String) :=
  match matchTimeTok s with
  | none => none
  | some (t1, rest) =>
    match rest with
    | ' ' :: 't' :: 'o' :: ' ' :: rest2 =>
      match matchTimeTok rest2 with
      | none => none
      | some (t2, _) => some (t1, t2)
    | _ => none

/-- Model of `parse_time_range(time_str)`: the range pattern is tried first, then
the single-time pattern, else `(None, None)`. -/
def parse_time_range (s : String) : Option String × Option String :=
  match matchRangeTok s.data with
  | some (a, b) => (some a, some b)
  | none =>
    match matchTimeTok s.data with
    | some (a, _) => (some a, none)
    | none => (none, none)

/-! ### `strptime("%Y-%m-%d %H:%M")` on `f"{event_date} {time_token}"`

The date half is the ISO rendering of an already-valid `date`, which
`%Y-%m-%d` always re-parses to the same triple, so only the `%H:%M` half
can fail.  `_strptime`'s directive regexes are `%H = 2[0-3]|[0-1]\d|\d`
and `%M = [0-5]\d|\d`, matched left to right with regex alternation, and
the whole string must be consumed. -/

def digitVal (c : Char) : Nat := c.toNat - '0'.toNat

/-- Directive `%H`, regex `2[0-3]|[0-1]\d|\d`.  Alternation backtracking never helps the
composed pattern: if a two-digit branch matches, the character after the
one-digit fallback is a digit, never the required `:`. -/
def matchHour : List Char → Option (Nat × List Char)
  | [] => none
  | c :: rest =>
    if c = '2' then
      match rest with
      | d :: rest2 =>
        if d.isDigit && digitVal d ≤ 3 then some (20 + digitVal d, rest2)
        else some (2, rest)
      | [] => some (2, [])
    else if c = '0' ∨ c = '1' then
      match rest with
      | d :: rest2 =>
        if d.isDigit then some (digitVal c * 10 + digitVal d, rest2)
        else some (digitVal c, rest)
      | [] => some (digitVal c, [])
    else if c.isDigit then some (digitVal c, rest)
    else none

/-- Directive `%M`, regex `[0-5]\d|\d`, same backtracking argument against the
end-of-string check that follows it. -/
def matchMin : List Char → Option (Nat × List Char)
  | [] => none
  | c :: rest =>
    if c.isDigit && digitVal c ≤ 5 then
      match rest with
      | d :: rest2 =>
        if d.isDigit then some (digitVal c * 10 + digitVal d, rest2)
        else some (digitVal c, rest)
      | [] => some (digitVal c, [])
    else if c.isDigit then some (digitVal c, rest)
    else none

/-- The `%H:%M` tail of the `strptime` call: hour, literal colon, minute,
then end of string (strptime rejects unconverted trailing data). -/
def strptimeHM (tok : String) : Option (Nat × Nat) :=
  match matchHour tok.data with
  | none => none
  | some (h, rest) =>
    match rest with
    | ':' :: rest2 =>
      match matchMin rest2 with
      | some (m, []) => some (h, m)
      | _ => none
    | _ => none

/-- Model of `datetime.strptime(f"{event_date} {tok}", "%Y-%m-%d %H:%M")`,
returning `none` where Python raises `ValueError`. -/
def combineDT (d : Date) (tok : String) : Option DateTime :=
  (strptimeHM tok).map (fun hm => ⟨d, hm.1 * 60 + hm.2⟩)

/-! ### Links and the description loop -/

/-- One `<a>` sub-element of a fragment: visible text and the optional
`href` attribute. -/
structure Link where
  text : String
  href : Option String
deriving DecidableEq

/-- Prefix test on character lists. -/
def isPrefixL : List Char → List Char → Bool
  | [], _ => true
  | _ :: _, [] => false
  | a :: as, b :: bs => a == b && isPrefixL as bs

/-- Substring occurrence test on character lists (Python `needle in hay`). -/
def containsSub (hay needle : List Char) : Bool :=
  match hay with
  | [] => isPrefixL needle []
  | _ :: t => isPrefixL needle hay || containsSub t needle

/-- Python `needle in hay` on strings. -/
def strContains (hay needle : String) : Bool := containsSub hay.data needle.data

/-- Python `s.startswith(pre)`. -/
def strStartsWith (s pre : String) : Bool := isPrefixL pre.data s.data

/-- The `link_url` fix-up: prepend `BASE_URL` unless the target already
starts with `"http"`. -/
def resolveUrl (u : String) : String :=
  if strStartsWith u "http" then u else BASE_URL ++ u

/-- The contribution of one link to the description: nothing when the
`href` attribute is absent or the empty string (Python's
`if not link_url: continue` tests truthiness, and `""` is falsy); an
`Agenda:` line when the text contains `"Agenda"`; a `Minutes:` line when
it contains `"Minutes"` (both when both). -/
def descLine (l : Link) : String :=
  match l.href with
  | none => ""
  | some u =>
    if u = "" then ""
    else
      (if strContains l.text "Agenda" then "Agenda: " ++ resolveUrl u ++ "\n" else "") ++
      (if strContains l.text "Minutes" then "Minutes: " ++ resolveUrl u ++ "\n" else "")

/-- The `description += ...` loop over all links of the fragment. -/
def buildDescription (links : List Link) : String :=
  links.foldl (fun acc l => acc ++ descLine l) ""

/-- Python `str.strip()`. -/
def stripStr (s : String) : String := String.mk ((s.data.dropWhile Char.isWhitespace).reverse.dropWhile Char.isWhitespace).reverse

/-! ### Fragments and per-fragment extraction -/

/-- One `div.minutes` fragment, reduced to the sub-fields the extractor
reads: the `h4` text (if an `h4` exists), the stripped texts of its `p`
tags in document order, and its links in document order. -/
structure Fragment where
  heading : Option String
  paragraphs : List String
  links : List Link
deriving DecidableEq

/-- The record handed to `make_ics_event`, keeping the resolved event
date alongside the two timestamps. -/
structure EventRec where
  eventDate : Date
  startDT : DateTime
  endDT : DateTime
  summary : String
  description : String
deriving DecidableEq

/-- The end-timestamp computation: an explicitly parsed end time is
combined with the date; an absent or invalidly combining end time falls
back to `start + timedelta(hours=DEFAULT_MEETING_DURATION_HOURS)`. -/
def buildEnd (eventDate : Date) (startDT : DateTime) (endTok : Option String) : DateTime :=
  match endTok with
  | none => startDT.addHour
  | some tok =>
    match combineDT eventDate tok with
    | some e => e
    | none => startDT.addHour

/-- The body of the `for minutes_div in minutes_divs` loop of
`extract_events_from_html`, with `date.today()` passed explicitly:
`none` exactly on the `continue` paths. -/
def processFragment (today : Date) (meetingType : String) (f : Fragment) : Option EventRec :=
  match f.heading with
  | none => none
  | some dateStr =>
    match parse_event_date today.year dateStr with
    | none => none
    | some eventDate =>
      if dateLt eventDate today then none
      else
        match f.paragraphs with
        | [] => none
        | p0 :: _ =>
          match parse_time_range p0 with
          | (none, _) => none
          | (some startTok, endTok) =>
            match combineDT eventDate startTok with
            | none => none
            | some startDT =>
              some { eventDate := eventDate
                     startDT := startDT
                     endDT := buildEnd eventDate startDT endTok
                     summary := "St Mewan Parish - " ++ meetingType ++ " Meeting"
                     description := stripStr (buildDescription f.links) }

/-- Function `extract_events_from_html`, at the level of event records. -/
def extract_events (today : Date) (meetingType : String) (frags : List Fragment) : List EventRec :=
  frags.filterMap (processFragment today meetingType)

/-! ### Serialization (`make_ics_event`, `generate_ical_content`) -/

def pad2 (n : Nat) : String := if n < 10 then "0" ++ toString n else toString n

def pad4 (n : Nat) : String :=
  if n < 10 then "000" ++ toString n
  else if n < 100 then "00" ++ toString n
  else if n < 1000 then "0" ++ toString n
  else toString n

/-- Python `strftime('%Y%m%dT%H%M%S')`. -/
def fmtDT (t : DateTime) : String :=
  pad4 t.date.year ++ pad2 t.date.month ++ pad2 t.date.day ++ "T" ++
    pad2 (t.mins / 60) ++ pad2 (t.mins % 60) ++ "00"

/-- Model of `make_ics_event(dtstart, dtend, summary, description)`. -/
def make_ics_event (e : EventRec) : String :=
  "BEGIN:VEVENT\n" ++
  "DTSTART;TZID=" ++ TIMEZONE ++ ":" ++ fmtDT e.startDT ++ "\n" ++
  "DTEND;TZID=" ++ TIMEZONE ++ ":" ++ fmtDT e.endDT ++ "\n" ++
  "SUMMARY:" ++ e.summary ++ "\n" ++
  "DESCRIPTION:" ++ e.description ++ "\n" ++
  "END:VEVENT\n"

/-- Function `extract_events_from_html`, at the level of the VEVENT strings the
source function returns. -/
def extract_events_from_html (today : Date) (meetingType : String) (frags : List Fragment) : List String :=
  (extract_events today meetingType frags).map make_ics_event

/-- Right-fold concatenation of a list of strings (`"".join(events)`). -/
def concatLines (ls : List String) : String := ls.foldr (fun a b => a ++ b) ""

/-- Model of `generate_ical_content(events)`. -/
def generate_ical_content (events : List String) : String :=
  "BEGIN:VCALENDAR\n" ++
  "VERSION:2.0\n" ++
  "PRODID:-//St Mewan Parish Council//EN\n" ++
  "CALSCALE:GREGORIAN\n" ++
  "METHOD:PUBLISH\n" ++
  "X-WR-TIMEZONE:" ++ TIMEZONE ++ "\n" ++
  concatLines events ++
  "END:VCALENDAR\n"

/-! ### The run (`main`) -/

/-- What `fetch_meeting_events` returns for one source: the extracted
events and whether the fetch succeeded. -/
structure FetchResult where
  events : List EventRec
  success : Bool
deriving DecidableEq

/-- The `all_events` list accumulated across the sources, in source order. -/
def allEvents (fetches : List FetchResult) : List EventRec :=
  (fetches.map FetchResult.events).flatten

/-- Outcome of a run: the process exit code and the content successfully
written to the output file, if any write completed. -/
structure RunResult where
  exitCode : Nat
  written : Option String
deriving DecidableEq

/-- Model of `main()`, with the fetch results and the success of the file write
passed explicitly: `sys.exit(1)` before any write when zero events were
collected; otherwise write the serialized calendar, exiting 1 if the
write raises `IOError` and 0 on success. -/
def mainRun (fetches : List FetchResult) (writeOk : Bool) : RunResult :=
  let evs := allEvents fetches
  if evs.length = 0 then ⟨1, none⟩
  else
    let content := generate_ical_content (evs.map make_ics_event)
    if writeOk then ⟨0, some content⟩ else ⟨1, none⟩

/-! ### Helper lemmas -/

theorem stringAppendAssoc (a b c : String) : a ++ b ++ c = a ++ (b ++ c) := by
  apply String.ext
  simp [String.data_append, List.append_assoc]

theorem combineDT_date {d : Date} {tok : String} {t : DateTime}
    (h : combineDT d tok = some t) : t.date = d := by
  unfold combineDT at h
  cases hs : strptimeHM tok with
  | none => rw [hs] at h; simp [Option.map] at h
  | some hm => rw [hs] at h; simp [Option.map] at h; rw [← h]

theorem dateLt_nextDate (d : Date) : dateLt d (nextDate d) := by
  unfold nextDate dateLt
  split
  · right; exact ⟨rfl, Or.inr ⟨rfl, Nat.lt_succ_self _⟩⟩
  · split
    · right; exact ⟨rfl, Or.inl (Nat.lt_succ_self _)⟩
    · left; exact Nat.lt_succ_self _

theorem lt_addHour (t : DateTime) : DateTime.lt t t.addHour := by
  unfold DateTime.addHour DateTime.lt
  split
  · right
    refine ⟨rfl, ?_⟩
    show t.mins < t.mins + 60
    omega
  · left; exact dateLt_nextDate t.date

theorem dateLt_irrefl (d : Date) : ¬ dateLt d d := by
  unfold dateLt; omega

/-- Inversion of one loop iteration: an emitted event determines every
guard on the way to it. -/
theorem processFragment_inv {today : Date} {mt : String} {f : Fragment} {ev : EventRec}
    (h : processFragment today mt f = some ev) :
    ∃ dateStr eventDate p0 rest startTok endTok startDT,
      f.heading = some dateStr ∧
      parse_event_date today.year dateStr = some eventDate ∧
      ¬ dateLt eventDate today ∧
      f.paragraphs = p0 :: rest ∧
      parse_time_range p0 = (some startTok, endTok) ∧
      combineDT eventDate startTok = some startDT ∧
      ev = { eventDate := eventDate
             startDT := startDT
             endDT := buildEnd eventDate startDT endTok
             summary := "St Mewan Parish - " ++ mt ++ " Meeting"
             description := stripStr (buildDescription f.links) } := by
  unfold processFragment at h
  split at h
  · exact absurd h (by simp)
  next dateStr hh =>
  split at h
  · exact absurd h (by simp)
  next eventDate hd =>
  split at h
  · exact absurd h (by simp)
  next hlt =>
  split at h
  · exact absurd h (by simp)
  next p0 rest hp =>
  split at h
  · exact absurd h (by simp)
  next startTok endTok ht =>
  split at h
  · exact absurd h (by simp)
  next startDT hc =>
  exact ⟨dateStr, eventDate, p0, rest, startTok, endTok, startDT,
    hh, hd, hlt, hp, ht, hc, ((Option.some.injEq _ _).mp h).symm⟩

theorem emptyAppend (s : String) : "" ++ s = s := by
  apply String.ext; simp [String.data_append]

theorem appendEmpty (s : String) : s ++ "" = s := by
  apply String.ext; simp [String.data_append]

/-- The description loop is the concatenation of the per-link lines. -/
theorem buildDescription_join (links : List Link) :
    buildDescription links = concatLines (links.map descLine) := by
  unfold buildDescription
  have key : ∀ (ls : List Link) (acc : String),
      ls.foldl (fun a l => a ++ descLine l) acc =
        acc ++ concatLines (ls.map descLine) := by
    intro ls
    induction ls with
    | nil => intro acc; exact (appendEmpty acc).symm
    | cons l ls ih =>
      intro acc
      simp only [List.foldl, List.map]
      rw [ih (acc ++ descLine l), stringAppendAssoc]
      rfl
  rw [key]
  exact emptyAppend _

/-! ### Claim C1: century resolution -/

theorem resolveYear_eq_spec (cy y2 : Nat) : resolveYear cy y2 = specResolvedYear cy y2 := by
  simp only [resolveYear, specResolvedYear, YEAR_THRESHOLD]
  split
  · omega
  · omega

/-- C1: for every date token that matches the pattern and whose month
abbreviation is recognized, the resolved year follows the spec's century
formula, and the parse yields `none` exactly when the resulting
day/month/year triple is not a valid calendar date. -/
theorem C1_century_resolution (cy : Nat) (s dayS monS yearS : String) (m : Nat)
    (hmatch : matchDate s.data = some (dayS, monS, yearS))
    (hmon : monthNumber monS = some m) :
    parse_event_date cy s =
      (if validDate (specResolvedYear cy (strToNat yearS)) m (strToNat dayS)
       then some ⟨specResolvedYear cy (strToNat yearS), m, strToNat dayS⟩
       else none) := by
  simp only [parse_event_date, hmatch, hmon]
  rw [resolveYear_eq_spec]
  rfl

theorem C1_century_resolution_witness :
    (matchDate ("8 Jan 75".data) = some ("8", "Jan", "75") ∧
      monthNumber "Jan" = some 1) ∧
    parse_event_date 2025 "8 Jan 75" =
      (if validDate (specResolvedYear 2025 (strToNat "75")) 1 (strToNat "8")
       then some ⟨specResolvedYear 2025 (strToNat "75"), 1, strToNat "8"⟩
       else none) :=
  ⟨⟨by decide, by decide⟩,
    C1_century_resolution 2025 "8 Jan 75" "8" "Jan" "75" 1 (by decide) (by decide)⟩

/-! ### Claim C3: month-abbreviation lookup -/

/-- C3 counterexample: the month lookup is case-insensitive
(`strptime`'s `%b` matches with `IGNORECASE`), so a token whose
abbreviation differs only in letter case parses successfully instead of
returning the failure signal. -/
theorem C3_counterexample : parse_event_date 2025 "8 JAN 25" = some ⟨2025, 1, 8⟩ := by
  decide

/-- C3 (amended): the month abbreviation is matched case-insensitively
against the fixed 12-entry lookup; a token whose (lower-cased)
abbreviation is not in the lookup fails to parse. -/
theorem C3_month_lookup :
    (∀ s t : String, lowerStr s = lowerStr t → monthNumber s = monthNumber t) ∧
    (∀ monS : String, monthNumber monS = none ↔ lowerStr monS ∉ monthAbbrs) ∧
    (∀ (cy : Nat) (s dayS monS yearS : String),
      matchDate s.data = some (dayS, monS, yearS) → monthNumber monS = none →
      parse_event_date cy s = none) ∧
    parse_event_date 2025 "8 jAn 25" = some ⟨2025, 1, 8⟩ := by
  refine ⟨?_, ?_, ?_, by decide⟩
  · intro s t h
    unfold monthNumber
    rw [h]
  · intro monS
    unfold monthNumber
    constructor
    · intro h hmem
      cases hf : monthAbbrs.findIdx? (fun a => a == lowerStr monS) with
      | some i => rw [hf] at h; simp at h
      | none =>
        rw [List.findIdx?_eq_none_iff] at hf
        have := hf _ hmem
        simp at this
    · intro h
      have hf : monthAbbrs.findIdx? (fun a => a == lowerStr monS) = none := by
        rw [List.findIdx?_eq_none_iff]
        intro x hx
        simp only [beq_eq_false_iff_ne, ne_eq]
        intro hxe
        exact h (hxe ▸ hx)
      rw [hf]
      rfl
  · intro cy s dayS monS yearS hmatch hmon
    simp only [parse_event_date, hmatch, hmon]

theorem C3_month_lookup_witness :
    (monthNumber "JAN" = monthNumber "jan" ∧
      (monthNumber "Foo" = none ↔ lowerStr "Foo" ∉ monthAbbrs) ∧
      matchDate ("8 Foo 25".data) = some ("8", "Foo", "25") ∧
      monthNumber "Foo" = none) ∧
    parse_event_date 2025 "8 Foo 25" = none :=
  ⟨⟨C3_month_lookup.1 "JAN" "jan" (by decide), C3_month_lookup.2.1 "Foo",
      by decide, by decide⟩,
    C3_month_lookup.2.2.1 2025 "8 Foo 25" "8" "Foo" "25" (by decide) (by decide)⟩

/-! ### Claim C4: time-range tie-break -/

/-- C4: the range pattern is tried first and, on a match, both times are
returned; otherwise the single-time pattern yields only a start time;
otherwise the parser returns `(none, none)`; with the three concrete
behaviours the spec lists. -/
theorem C4_time_tiebreak :
    (∀ (s : String) (a b : String),
      matchRangeTok s.data = some (a, b) → parse_time_range s = (some a, some b)) ∧
    (∀ (s : String) (t : String) (r : List Char),
      matchRangeTok s.data = none → matchTimeTok s.data = some (t, r) →
      parse_time_range s = (some t, none)) ∧
    (∀ s : String, matchRangeTok s.data = none → matchTimeTok s.data = none →
      parse_time_range s = (none, none)) ∧
    parse_time_range "19:00 to 21:00" = (some "19:00", some "21:00") ∧
    parse_time_range "18:00" = (some "18:00", none) ∧
    parse_time_range "not-a-time" = (none, none) := by
  refine ⟨?_, ?_, ?_, by decide, by decide, by decide⟩
  · intro s a b h
    simp only [parse_time_range, h]
  · intro s t r h1 h2
    simp only [parse_time_range, h1, h2]
  · intro s h1 h2
    simp only [parse_time_range, h1, h2]

theorem C4_time_tiebreak_witness :
    matchRangeTok ("19:00 to 21:00".data) = some ("19:00", "21:00") ∧
    parse_time_range "19:00 to 21:00" = (some "19:00", some "21:00") :=
  ⟨by decide, C4_time_tiebreak.1 "19:00 to 21:00" "19:00" "21:00" (by decide)⟩

/-! ### Claim C2: start < end -/

/-- C2 counterexample: a fragment whose time text is `"19:00 to 18:00"`
yields an event whose end timestamp is strictly before its start
timestamp, so `start < end` does not hold for every produced event. -/
theorem C2_counterexample :
    extract_events ⟨2025, 1, 1⟩ "Planning"
        [⟨some "8 Jan 25", ["19:00 to 18:00"], []⟩] =
      [{ eventDate := ⟨2025, 1, 8⟩
         startDT := ⟨⟨2025, 1, 8⟩, 1140⟩
         endDT := ⟨⟨2025, 1, 8⟩, 1080⟩
         summary := "St Mewan Parish - Planning Meeting"
         description := "" }] ∧
    ¬ DateTime.lt ⟨⟨2025, 1, 8⟩, 1140⟩ ⟨⟨2025, 1, 8⟩, 1080⟩ :=
  ⟨by decide, by decide⟩

/-- C2 (amended): an emitted event whose end is the default
`start + 1 hour` satisfies `start < end`; an end taken from an
explicitly parsed end time lies on the same date as the start, so
`start < end` holds for it exactly when the end's time-of-day is after
the start's (and can fail, as the counterexample shows). -/
theorem C2_start_lt_end (today : Date) (mt : String) (frags : List Fragment)
    (ev : EventRec) (h : ev ∈ extract_events today mt frags) :
    (ev.endDT = ev.startDT.addHour → DateTime.lt ev.startDT ev.endDT) ∧
    (ev.endDT ≠ ev.startDT.addHour →
      ev.endDT.date = ev.startDT.date ∧
        (DateTime.lt ev.startDT ev.endDT ↔ ev.startDT.mins < ev.endDT.mins)) := by
  obtain ⟨f, _, hp⟩ := List.mem_filterMap.mp h
  obtain ⟨dateStr, eventDate, p0, rest, startTok, endTok, startDT,
    _, _, _, _, _, hc, hev⟩ := processFragment_inv hp
  have h1 : ev.startDT = startDT := by rw [hev]
  have h2 : ev.endDT = buildEnd eventDate startDT endTok := by rw [hev]
  constructor
  · intro he
    rw [he]
    exact lt_addHour _
  · intro hne
    rw [h1, h2] at hne ⊢
    cases endTok with
    | none => exact absurd rfl hne
    | some tok =>
      simp only [buildEnd] at hne ⊢
      cases hcb : combineDT eventDate tok with
      | none => rw [hcb] at hne; exact absurd rfl hne
      | some e =>
        simp only [hcb] at hne ⊢
        have hd : e.date = eventDate := combineDT_date hcb
        have hsd : startDT.date = eventDate := combineDT_date hc
        constructor
        · rw [hd, hsd]
        · unfold DateTime.lt
          rw [hd, hsd]
          constructor
          · rintro (hlt | ⟨_, hm⟩)
            · exact absurd hlt (dateLt_irrefl _)
            · exact hm
          · intro hm
            exact Or.inr ⟨rfl, hm⟩

theorem C2_start_lt_end_witness :
    ({ eventDate := ⟨2025, 1, 8⟩
       startDT := ⟨⟨2025, 1, 8⟩, 1080⟩
       endDT := ⟨⟨2025, 1, 8⟩, 1140⟩
       summary := "St Mewan Parish - Planning Meeting"
       description := "" } : EventRec) ∈
        extract_events ⟨2025, 1, 1⟩ "Planning" [⟨some "8 Jan 25", ["18:00"], []⟩] ∧
    (({ eventDate := ⟨2025, 1, 8⟩
        startDT := ⟨⟨2025, 1, 8⟩, 1080⟩
        endDT := ⟨⟨2025, 1, 8⟩, 1140⟩
        summary := "St Mewan Parish - Planning Meeting"
        description := "" } : EventRec).endDT =
          DateTime.addHour ⟨⟨2025, 1, 8⟩, 1080⟩ →
      DateTime.lt ⟨⟨2025, 1, 8⟩, 1080⟩ ⟨⟨2025, 1, 8⟩, 1140⟩) :=
  ⟨by decide,
    (C2_start_lt_end ⟨2025, 1, 1⟩ "Planning" [⟨some "8 Jan 25", ["18:00"], []⟩]
      { eventDate := ⟨2025, 1, 8⟩
        startDT := ⟨⟨2025, 1, 8⟩, 1080⟩
        endDT := ⟨⟨2025, 1, 8⟩, 1140⟩
        summary := "St Mewan Parish - Planning Meeting"
        description := "" } (by decide)).1⟩

/-! ### Claim C5: no past events -/

/-- C5: the extractor never emits an event whose resolved date is
strictly before the run's current date (the event's start timestamp
falls on that resolved date), and a fragment whose resolved date is
strictly before the current date is skipped outright. -/
theorem C5_future_only (today : Date) (mt : String) :
    (∀ (frags : List Fragment) (ev : EventRec), ev ∈ extract_events today mt frags →
      ¬ dateLt ev.eventDate today ∧ ev.startDT.date = ev.eventDate) ∧
    (∀ (f : Fragment) (dateStr : String) (d : Date),
      f.heading = some dateStr → parse_event_date today.year dateStr = some d →
      dateLt d today → processFragment today mt f = none) := by
  constructor
  · intro frags ev h
    obtain ⟨f, _, hp⟩ := List.mem_filterMap.mp h
    obtain ⟨dateStr, eventDate, p0, rest, startTok, endTok, startDT,
      _, _, hlt, _, _, hc, hev⟩ := processFragment_inv hp
    have h1 : ev.eventDate = eventDate := by rw [hev]
    have h2 : ev.startDT = startDT := by rw [hev]
    rw [h1, h2]
    exact ⟨hlt, combineDT_date hc⟩
  · intro f dateStr d hh hd hlt
    simp only [processFragment, hh, hd, if_pos hlt]

theorem C5_future_only_witness :
    (({ eventDate := ⟨2025, 1, 8⟩
        startDT := ⟨⟨2025, 1, 8⟩, 1080⟩
        endDT := ⟨⟨2025, 1, 8⟩, 1140⟩
        summary := "St Mewan Parish - Planning Meeting"
        description := "" } : EventRec) ∈
        extract_events ⟨2025, 1, 1⟩ "Planning" [⟨some "8 Jan 25", ["18:00"], []⟩] →
      ¬ dateLt ⟨2025, 1, 8⟩ ⟨2025, 1, 1⟩ ∧
        (⟨⟨2025, 1, 8⟩, 1080⟩ : DateTime).date = ⟨2025, 1, 8⟩) ∧
    processFragment ⟨2025, 1, 1⟩ "Planning" ⟨some "8 Jan 24", ["18:00"], []⟩ = none :=
  ⟨fun hm => (C5_future_only ⟨2025, 1, 1⟩ "Planning").1
      [⟨some "8 Jan 25", ["18:00"], []⟩] _ hm,
    (C5_future_only ⟨2025, 1, 1⟩ "Planning").2 ⟨some "8 Jan 24", ["18:00"], []⟩
      "8 Jan 24" ⟨2024, 1, 8⟩ rfl (by decide) (by decide)⟩

/-! ### Claim C6: the 1-hour default end -/

/-- C6: an emitted event with no parsed end time has
`end = start + 1 hour`; an end time whose date/time combination is
invalid likewise degrades to `start + 1 hour`; and once all earlier
guards pass, the fragment is emitted exactly when the start date/time
combination is valid (end-time trouble never discards it). -/
theorem C6_default_duration (today : Date) (mt : String) (f : Fragment) :
    (∀ (ev : EventRec) (p0 : String) (rest : List String) (startTok : String)
        (endTok : Option String),
      processFragment today mt f = some ev →
      f.paragraphs = p0 :: rest →
      parse_time_range p0 = (some startTok, endTok) →
      (endTok = none → ev.endDT = ev.startDT.addHour) ∧
      (∀ tok, endTok = some tok → combineDT ev.eventDate tok = none →
        ev.endDT = ev.startDT.addHour)) ∧
    (∀ (dateStr : String) (eventDate : Date) (p0 : String) (rest : List String)
        (startTok : String) (endTok : Option String),
      f.heading = some dateStr →
      parse_event_date today.year dateStr = some eventDate →
      ¬ dateLt eventDate today →
      f.paragraphs = p0 :: rest →
      parse_time_range p0 = (some startTok, endTok) →
      ((processFragment today mt f).isSome ↔ (combineDT eventDate startTok).isSome)) := by
  constructor
  · intro ev p0 rest startTok endTok h hp ht
    obtain ⟨dateStr', eventDate', p0', rest', startTok', endTok', startDT',
      _, _, _, hp', ht', hc', hev⟩ := processFragment_inv h
    rw [hp] at hp'
    obtain ⟨hp0, -⟩ := List.cons.injEq _ _ _ _ ▸ hp'
    rw [← hp0] at ht'
    rw [ht] at ht'
    obtain ⟨hst, het⟩ := Prod.mk.injEq _ _ _ _ ▸ ht'
    have h1 : ev.startDT = startDT' := by rw [hev]
    have h2 : ev.endDT = buildEnd eventDate' startDT' endTok' := by rw [hev]
    have h3 : ev.eventDate = eventDate' := by rw [hev]
    constructor
    · intro hnone
      rw [hnone] at het
      rw [h1, h2, ← het]
      rfl
    · intro tok hsome hcomb
      rw [hsome] at het
      rw [h3] at hcomb
      rw [h1, h2, ← het]
      simp only [buildEnd, hcomb]
  · intro dateStr eventDate p0 rest startTok endTok hh hd hlt hp ht
    simp only [processFragment, hh, hd, if_neg hlt, hp, ht]
    cases hc : combineDT eventDate startTok with
    | none => simp
    | some startDT => simp

theorem C6_default_duration_witness :
    ((processFragment ⟨2025, 1, 1⟩ "Planning" ⟨some "8 Jan 25", ["18:00"], []⟩ =
        some { eventDate := ⟨2025, 1, 8⟩
               startDT := ⟨⟨2025, 1, 8⟩, 1080⟩
               endDT := ⟨⟨2025, 1, 8⟩, 1140⟩
               summary := "St Mewan Parish - Planning Meeting"
               description := "" } ∧
      parse_time_range "18:00" = (some "18:00", none)) ∧
      (DateTime.addHour ⟨⟨2025, 1, 8⟩, 1080⟩ = ⟨⟨2025, 1, 8⟩, 1140⟩)) ∧
    ((none : Option String) = none →
      ({ eventDate := ⟨2025, 1, 8⟩
         startDT := ⟨⟨2025, 1, 8⟩, 1080⟩
         endDT := ⟨⟨2025, 1, 8⟩, 1140⟩
         summary := "St Mewan Parish - Planning Meeting"
         description := "" } : EventRec).endDT =
        DateTime.addHour ({ eventDate := ⟨2025, 1, 8⟩
                            startDT := ⟨⟨2025, 1, 8⟩, 1080⟩
                            endDT := ⟨⟨2025, 1, 8⟩, 1140⟩
                            summary := "St Mewan Parish - Planning Meeting"
                            description := "" } : EventRec).startDT) :=
  ⟨⟨⟨by decide, by decide⟩, by decide⟩,
    ((C6_default_duration ⟨2025, 1, 1⟩ "Planning" ⟨some "8 Jan 25", ["18:00"], []⟩).1
      { eventDate := ⟨2025, 1, 8⟩
        startDT := ⟨⟨2025, 1, 8⟩, 1080⟩
        endDT := ⟨⟨2025, 1, 8⟩, 1140⟩
        summary := "St Mewan Parish - Planning Meeting"
        description := "" }
      "18:00" [] "18:00" none (by decide) rfl (by decide)).1⟩

/-! ### Claim C7: description from the fragment's links -/

/-- C7 counterexample: a link whose target attribute is present but is
the empty string is skipped by the code's truthiness test
(`if not link_url: continue`), so an `<a href="">` link whose text
contains `"Agenda"` contributes nothing, where the claim's reading (any
target not beginning with `"http"` gets the base address prepended)
would make it contribute `"Agenda: "` followed by the base address. -/
theorem C7_counterexample :
    extract_events ⟨2025, 1, 1⟩ "Planning"
        [⟨some "8 Jan 25", ["18:00"], [⟨"Agenda", some ""⟩]⟩] =
      [{ eventDate := ⟨2025, 1, 8⟩
         startDT := ⟨⟨2025, 1, 8⟩, 1080⟩
         endDT := ⟨⟨2025, 1, 8⟩, 1140⟩
         summary := "St Mewan Parish - Planning Meeting"
         description := "" }] ∧
    ("" : String) ≠ stripStr ("Agenda: " ++ BASE_URL ++ "\n") :=
  ⟨by decide, by decide⟩

/-- C7 (amended): the emitted event's description is the in-order
concatenation, over every link of the fragment, of an `Agenda:` line
when the link text contains `"Agenda"` and a `Minutes:` line when it
contains `"Minutes"` (both when both), skipping links whose target
attribute is absent or empty, where a non-empty target not beginning
with `"http"` gets the fixed base address prepended and one that does
is left unchanged. -/
theorem C7_description (today : Date) (mt : String) (f : Fragment) (ev : EventRec)
    (h : processFragment today mt f = some ev) :
    ev.description =
      stripStr (concatLines (f.links.map (fun l =>
        match l.href with
        | none => ""
        | some u =>
          if u = "" then ""
          else
            (if strContains l.text "Agenda" then
              "Agenda: " ++ (if strStartsWith u "http" then u else BASE_URL ++ u) ++ "\n"
             else "") ++
            (if strContains l.text "Minutes" then
              "Minutes: " ++ (if strStartsWith u "http" then u else BASE_URL ++ u) ++ "\n"
             else "")))) := by
  obtain ⟨dateStr, eventDate, p0, rest, startTok, endTok, startDT,
    _, _, _, _, _, _, hev⟩ := processFragment_inv h
  have h1 : ev.description = stripStr (buildDescription f.links) := by rw [hev]
  rw [h1, buildDescription_join]
  rfl

set_option maxRecDepth 20000 in
theorem C7_description_witness :
    processFragment ⟨2025, 1, 1⟩ "Planning"
        ⟨some "8 Jan 25", ["18:00"],
         [⟨"Meeting Agenda", some "/doc1.pdf"⟩,
          ⟨"Minutes", some "http://ex.org/m.pdf"⟩,
          ⟨"Agenda and Minutes", some "/both.pdf"⟩,
          ⟨"Agenda", none⟩,
          ⟨"Agenda", some ""⟩,
          ⟨"Other", some "/x.pdf"⟩]⟩ =
      some { eventDate := ⟨2025, 1, 8⟩
             startDT := ⟨⟨2025, 1, 8⟩, 1080⟩
             endDT := ⟨⟨2025, 1, 8⟩, 1140⟩
             summary := "St Mewan Parish - Planning Meeting"
             description :=
               "Agenda: https://www.stmewanparishcouncil.gov.uk/doc1.pdf\n" ++
               "Minutes: http://ex.org/m.pdf\n" ++
               "Agenda: https://www.stmewanparishcouncil.gov.uk/both.pdf\n" ++
               "Minutes: https://www.stmewanparishcouncil.gov.uk/both.pdf" } ∧
    ({ eventDate := ⟨2025, 1, 8⟩
       startDT := ⟨⟨2025, 1, 8⟩, 1080⟩
       endDT := ⟨⟨2025, 1, 8⟩, 1140⟩
       summary := "St Mewan Parish - Planning Meeting"
       description :=
         "Agenda: https://www.stmewanparishcouncil.gov.uk/doc1.pdf\n" ++
         "Minutes: http://ex.org/m.pdf\n" ++
         "Agenda: https://www.stmewanparishcouncil.gov.uk/both.pdf\n" ++
         "Minutes: https://www.stmewanparishcouncil.gov.uk/both.pdf" } : EventRec).description =
      stripStr (concatLines
        (([⟨"Meeting Agenda", some "/doc1.pdf"⟩,
           ⟨"Minutes", some "http://ex.org/m.pdf"⟩,
           ⟨"Agenda and Minutes", some "/both.pdf"⟩,
           ⟨"Agenda", none⟩,
           ⟨"Agenda", some ""⟩,
           ⟨"Other", some "/x.pdf"⟩] : List Link).map (fun l =>
          match l.href with
          | none => ""
          | some u =>
            if u = "" then ""
            else
              (if strContains l.text "Agenda" then
                "Agenda: " ++ (if strStartsWith u "http" then u else BASE_URL ++ u) ++ "\n"
               else "") ++
              (if strContains l.text "Minutes" then
                "Minutes: " ++ (if strStartsWith u "http" then u else BASE_URL ++ u) ++ "\n"
               else "")))) :=
  ⟨by decide,
    C7_description ⟨2025, 1, 1⟩ "Planning"
      ⟨some "8 Jan 25", ["18:00"],
       [⟨"Meeting Agenda", some "/doc1.pdf"⟩,
        ⟨"Minutes", some "http://ex.org/m.pdf"⟩,
        ⟨"Agenda and Minutes", some "/both.pdf"⟩,
        ⟨"Agenda", none⟩,
        ⟨"Agenda", some ""⟩,
        ⟨"Other", some "/x.pdf"⟩]⟩ _ (by decide)⟩

/-! ### Claim C9: no range validation of time values -/

/-- C9: any token of shape digits-colon-digits is returned as a start
time with no validation of the numeric values (`"99:99"` included); an
out-of-range value is only rejected when combined with the date, where
an invalid start combination skips the fragment and an invalid end
combination degrades to the default 1-hour duration. -/
theorem C9_no_range_validation :
    (∀ (s : String) (tok : String) (rest : List Char),
      matchTimeTok s.data = some (tok, rest) → (parse_time_range s).1 = some tok) ∧
    parse_time_range "99:99" = (some "99:99", none) ∧
    (∀ (today : Date) (mt : String) (f : Fragment) (dateStr : String)
        (eventDate : Date) (p0 : String) (rest : List String) (startTok : String)
        (endTok : Option String),
      f.heading = some dateStr →
      parse_event_date today.year dateStr = some eventDate →
      ¬ dateLt eventDate today →
      f.paragraphs = p0 :: rest →
      parse_time_range p0 = (some startTok, endTok) →
      combineDT eventDate startTok = none →
      processFragment today mt f = none) ∧
    (∀ (d : Date) (sdt : DateTime) (tok : String),
      combineDT d tok = none → buildEnd d sdt (some tok) = sdt.addHour) := by
  refine ⟨?_, by decide, ?_, ?_⟩
  · intro s tok rest h
    cases hr : matchRangeTok s.data with
    | none => simp only [parse_time_range, hr, h]
    | some ab =>
      obtain ⟨a, b⟩ := ab
      have ha : tok = a := by
        simp only [matchRangeTok, h] at hr
        split at hr
        · split at hr
          · exact absurd hr (by simp)
          · exact ((Prod.mk.injEq _ _ _ _).mp ((Option.some.injEq _ _).mp hr)).1
        · exact absurd hr (by simp)
      rw [ha]
      simp only [parse_time_range, hr]
  · intro today mt f dateStr eventDate p0 rest startTok endTok hh hd hlt hp ht hc
    simp only [processFragment, hh, hd, if_neg hlt, hp, ht, hc]
  · intro d sdt tok hc
    simp only [buildEnd, hc]

theorem C9_no_range_validation_witness :
    (matchTimeTok ("99:99 tonight".data) = some ("99:99", " tonight".data) ∧
      (parse_time_range "99:99 tonight").1 = some "99:99") ∧
    (combineDT ⟨2025, 1, 8⟩ "99:99" = none ∧
      buildEnd ⟨2025, 1, 8⟩ ⟨⟨2025, 1, 8⟩, 1080⟩ (some "99:99") =
        DateTime.addHour ⟨⟨2025, 1, 8⟩, 1080⟩) ∧
    processFragment ⟨2025, 1, 1⟩ "Planning" ⟨some "8 Jan 25", ["99:99"], []⟩ = none :=
  ⟨⟨by decide, C9_no_range_validation.1 "99:99 tonight" "99:99" (" tonight".data) (by decide)⟩,
    ⟨by decide, C9_no_range_validation.2.2.2 ⟨2025, 1, 8⟩ ⟨⟨2025, 1, 8⟩, 1080⟩ "99:99" (by decide)⟩,
    C9_no_range_validation.2.2.1 ⟨2025, 1, 1⟩ "Planning" ⟨some "8 Jan 25", ["99:99"], []⟩
      "8 Jan 25" ⟨2025, 1, 8⟩ "99:99" [] "99:99" none rfl (by decide) (by decide) rfl
      (by decide) (by decide)⟩

/-! ### Claim C8: exit policy -/

/-- C8: the run exits with the failure status exactly when zero events
were extracted across all sources or the output write fails; with at
least one event and a successful write it exits 0 — regardless of how
many individual sources failed — and the collected (possibly partial)
events are written out. -/
theorem C8_exit_policy (fetches : List FetchResult) (writeOk : Bool) :
    ((mainRun fetches writeOk).exitCode = 1 ↔
      (allEvents fetches = [] ∨ writeOk = false)) ∧
    (allEvents fetches ≠ [] → writeOk = true →
      mainRun fetches writeOk =
        ⟨0, some (generate_ical_content ((allEvents fetches).map make_ics_event))⟩) := by
  simp only [mainRun]
  by_cases h0 : (allEvents fetches).length = 0
  · have he : allEvents fetches = [] := List.length_eq_zero.mp h0
    rw [if_pos h0]
    constructor
    · exact ⟨fun _ => Or.inl he, fun _ => rfl⟩
    · intro hne
      exact absurd he hne
  · have he : allEvents fetches ≠ [] := by
      intro hc
      exact h0 (by rw [hc]; rfl)
    rw [if_neg h0]
    cases writeOk with
    | true =>
      constructor
      · constructor
        · intro h1
          exact absurd h1 (by simp)
        · rintro (hc | hc)
          · exact absurd hc he
          · exact absurd hc (by simp)
      · intro _ _
        rfl
    | false =>
      constructor
      · exact ⟨fun _ => Or.inr rfl, fun _ => rfl⟩
      · intro _ hc
        exact absurd hc (by simp)

theorem C8_exit_policy_witness :
    (allEvents [⟨[{ eventDate := ⟨2025, 1, 8⟩
                    startDT := ⟨⟨2025, 1, 8⟩, 1080⟩
                    endDT := ⟨⟨2025, 1, 8⟩, 1140⟩
                    summary := "St Mewan Parish - Planning Meeting"
                    description := "" }], true⟩, ⟨[], false⟩] ≠ [] ∧
      true = true) ∧
    mainRun [⟨[{ eventDate := ⟨2025, 1, 8⟩
                 startDT := ⟨⟨2025, 1, 8⟩, 1080⟩
                 endDT := ⟨⟨2025, 1, 8⟩, 1140⟩
                 summary := "St Mewan Parish - Planning Meeting"
                 description := "" }], true⟩, ⟨[], false⟩] true =
      ⟨0, some (generate_ical_content
        ((allEvents [⟨[{ eventDate := ⟨2025, 1, 8⟩
                         startDT := ⟨⟨2025, 1, 8⟩, 1080⟩
                         endDT := ⟨⟨2025, 1, 8⟩, 1140⟩
                         summary := "St Mewan Parish - Planning Meeting"
                         description := "" }], true⟩, ⟨[], false⟩]).map make_ics_event))⟩ :=
  ⟨⟨by decide, rfl⟩,
    (C8_exit_policy [⟨[{ eventDate := ⟨2025, 1, 8⟩
                         startDT := ⟨⟨2025, 1, 8⟩, 1080⟩
                         endDT := ⟨⟨2025, 1, 8⟩, 1140⟩
                         summary := "St Mewan Parish - Planning Meeting"
                         description := "" }], true⟩, ⟨[], false⟩] true).2
      (by decide) rfl⟩

/-! ### Claim C10: nothing is written on the zero-events path -/

theorem make_ics_event_data_len (e : EventRec) :
    13 ≤ (make_ics_event e).data.length := by
  unfold make_ics_event
  simp only [String.data_append, List.length_append, List.length_cons, List.length_nil]
  omega

/-- C10: with zero events collected, the run exits with status 1 before
any write, leaving the filesystem untouched; and a calendar whose event
list is empty (header and footer only) is never the written content. -/
theorem C10_no_empty_file (fetches : List FetchResult) (writeOk : Bool) :
    (allEvents fetches = [] → mainRun fetches writeOk = ⟨1, none⟩) ∧
    (∀ c : String, (mainRun fetches writeOk).written = some c →
      c ≠ generate_ical_content []) := by
  simp only [mainRun]
  by_cases h0 : (allEvents fetches).length = 0
  · rw [if_pos h0]
    exact ⟨fun _ => rfl, fun c hc => absurd hc (by simp)⟩
  · rw [if_neg h0]
    constructor
    · intro he
      exact absurd (by rw [he]; rfl) h0
    · intro c hc
      cases writeOk with
      | false => exact absurd hc (by simp)
      | true =>
        have hcc : c = generate_ical_content ((allEvents fetches).map make_ics_event) :=
          ((Option.some.injEq _ _).mp hc).symm
        rw [hcc]
        intro hEq
        cases hev : allEvents fetches with
        | nil => exact h0 (by rw [hev]; rfl)
        | cons e0 tl =>
          rw [hev] at hEq
          have hlen := congrArg (fun s : String => s.data.length) hEq
          simp only [generate_ical_content, concatLines, List.map, List.foldr,
            String.data_append, List.length_append, List.length_cons,
            List.length_nil] at hlen
          have h13 := make_ics_event_data_len e0
          have hz : ("" : String).data.length = 0 := by decide
          omega

theorem C10_no_empty_file_witness :
    allEvents [⟨[], true⟩, ⟨[], false⟩] = [] ∧
    mainRun [⟨[], true⟩, ⟨[], false⟩] true = ⟨1, none⟩ :=
  ⟨by decide, (C10_no_empty_file [⟨[], true⟩, ⟨[], false⟩] true).1 (by decide)⟩

end StMewan
